import Mathlib

/-!
Shallow embedding of `src/adax/__init__.py` (pyAdax): a stateful asyncio
client for the Adax heater cloud API.  Pure data flow is translated to Lean
functions with explicit state passing; the cooperative (single-threaded
asyncio) write-coalescer is translated to a step relation on the client
state, with one step per suspension-point-delimited segment of the Python
coroutines.  Times are rationals (seconds); `datetime.datetime.utcnow()`
values are supplied as explicit oracle inputs, since the code only ever
subtracts and compares them.  HTTP attempt outcomes, token-exchange results
and clock readings are supplied by oracles indexed by the number of
outbound dispatches performed so far.
-/

/-- `RATE_LIMIT_SECONDS = 10` from the source. -/
def RATE_LIMIT_SECONDS : ℚ := 10

/-- Python `int()` on a numeric value: truncation toward zero. -/
def pyInt (q : ℚ) : ℤ := if 0 ≤ q then ⌊q⌋ else ⌈q⌉

/-- `str(int(temperature * 100))` from `set_room_target_temperature`. -/
def encodeTemperature (temperature : ℚ) : String := toString (pyInt (temperature * 100))

/-- Python `float(s)` restricted to the optionally-signed integer strings this
client actually produces (`str(int(...))`), returning the denoted integer. -/
def strToInt (s : String) : ℤ :=
  match s.data with
  | '-' :: rest => - ((rest.foldl (fun acc c => acc * 10 + (c.toNat - 48)) 0 : ℕ) : ℤ)
  | cs => ((cs.foldl (fun acc c => acc * 10 + (c.toNat - 48)) 0 : ℕ) : ℤ)

/-- A room dict as it arrives in the `content` response JSON, before ingest.
`targetTemperature`/`temperature` are read with `.get(_, 0)` in the source, so
they are optional; `rest` stands for all remaining fields of the dict. -/
structure RawRoom where
  id : ℤ
  targetTemperature : Option ℤ
  temperature : Option ℤ
  heatingEnabled : Bool
  rest : ℕ
deriving DecidableEq, Repr

/-- A room dict as stored in `self._rooms` after `fetch_rooms_info` ingest
(temperatures divided by `100.0`). -/
structure Room where
  id : ℤ
  targetTemperature : ℚ
  temperature : ℚ
  heatingEnabled : Bool
  rest : ℕ
deriving DecidableEq, Repr

def defaultRoom : Room :=
  { id := 0, targetTemperature := 0, temperature := 0, heatingEnabled := false, rest := 0 }

/-- One entry of `self._pending_writes["rooms"]`.  The source reads the
fields back with `.get`, so they are optional here; `targetTemperature` is
the string produced by `str(int(temperature * 100))`. -/
structure PendingRoom where
  id : ℤ
  heatingEnabled : Option Bool
  targetTemperature : Option String
deriving DecidableEq, Repr

/-- Body of a 200 response of the content endpoint. -/
structure ContentJson where
  homes : List ℕ
  rooms : List RawRoom
  devices : List ℕ
deriving DecidableEq

/-- Phase of the coroutine behind `self._write_task`:
suspended in `asyncio.sleep` (with its absolute wake time), suspended inside
the control-endpoint HTTP call, or terminated abnormally (died with an
exception so that none of its remaining statements ran). -/
inductive WPhase
  | sleeping (wake : ℚ)
  | flushing
  | dead
deriving DecidableEq, Repr

/-- The write task: the `json_data` snapshot passed to
`_write_set_room_target_temperature` plus the coroutine's phase. -/
structure WTask where
  body : List PendingRoom
  phase : WPhase
deriving DecidableEq, Repr

/-- The fields of the `Adax` object, plus observation instrumentation:
`posts` logs the body of every control-endpoint POST dispatched, `waiters`
counts callers currently blocked on `self._set_event.wait()`, `released`
counts wakeups delivered by `set`/`clear` cycles, `cancelledWhileFlushing`
counts `task.cancel()` calls that hit a task whose HTTP call was already
dispatched, `dispatches` counts outbound HTTP calls through `_request`, and
`warnings` counts `_LOGGER.warning` emissions. -/
structure AdaxState where
  access_token : Option ℕ
  homes : List ℕ
  rooms : List Room
  devices : List ℕ
  energy : List (ℤ × ℕ)
  prev_request : ℚ
  pending : List PendingRoom
  write_task : Option WTask
  posts : List (List PendingRoom)
  waiters : ℕ
  released : ℕ
  cancelledWhileFlushing : ℕ
  dispatches : ℕ
  warnings : ℕ
deriving DecidableEq, Repr

/-- `Adax.__init__`: empty snapshots, no token, no pending writes, and
`_prev_request = utcnow() - timedelta(hours=2)` where `t` is construction
time (7200 seconds). -/
def initAdax (t : ℚ) : AdaxState :=
  { access_token := none
    homes := []
    rooms := []
    devices := []
    energy := []
    prev_request := t - 7200
    pending := []
    write_task := none
    posts := []
    waiters := 0
    released := 0
    cancelledWhileFlushing := 0
    dispatches := 0
    warnings := 0 }

/-- What one transport attempt inside `_request` produces: an HTTP response
with a status and a JSON body (`None` body models `response.json()` being
`None`), an `aiohttp.ClientError` (whose text may or may not contain
`"429"`), or an `asyncio.TimeoutError`. -/
inductive AttemptOut (β : Type)
  | resp (status : ℕ) (jsonBody : Option β)
  | clientError (has429 : Bool)
  | timeoutError
deriving DecidableEq

/-- A response as seen by the callers of `_request` (status 200 only). -/
structure HttpResp (β : Type) where
  status : ℕ
  jsonBody : Option β
deriving DecidableEq

/-- The two exception classes `_request` can re-raise after exhausting its
retry budget. -/
inductive ReqErr
  | clientError (has429 : Bool)
  | timeoutError
deriving DecidableEq, Repr

/-- `Adax._request`, as explicit state passing.  `att k` is the outcome of
the `k`-th outbound dispatch overall, `times k` the pair (clock reading at
entry of the `_request` invocation performing dispatch `k`, clock reading
after that dispatch completes), and `tok k` the result of `get_adax_token`
when invoked with `k` dispatches made so far.  The result is the new state
together with `Except`: `.error` models the `raise` statements, `.ok none`
the `return None` paths, `.ok (some r)` a 200 response. -/
def adaxRequest {β : Type} (att : ℕ → AttemptOut β) (times : ℕ → ℚ × ℚ)
    (tok : ℕ → Option ℕ) :
    ℕ → AdaxState → AdaxState × Except ReqErr (Option (HttpResp β))
  | retry, s0 =>
    let s1 := { s0 with prev_request := (times s0.dispatches).1 }
    let s2 := { s1 with access_token :=
      match s1.access_token with
      | some t => some t
      | none => tok s1.dispatches }
    match s2.access_token with
    | none => (s2, .ok none)
    | some _ =>
      let d := s2.dispatches
      let s3 := { s2 with dispatches := d + 1 }
      match att d with
      | .resp status body =>
        if status = 200 then
          ({ s3 with prev_request := (times d).2 }, .ok (some ⟨status, body⟩))
        else
          let s4 := { s3 with access_token := none }
          match retry with
          | rr + 1 =>
            if status = 429 then
              ({ s4 with warnings := s4.warnings + 1 }, .ok none)
            else
              adaxRequest att times tok rr s4
          | 0 => (s4, .ok none)
      | .clientError b =>
        let s4 := { s3 with access_token := none }
        match retry with
        | rr + 1 =>
          if b then (s4, .error (.clientError b))
          else adaxRequest att times tok rr s4
        | 0 => (s4, .error (.clientError b))
      | .timeoutError =>
        let s4 := { s3 with access_token := none }
        match retry with
        | rr + 1 => adaxRequest att times tok rr s4
        | 0 => (s4, .error .timeoutError)

/-- The oracle environment for the read paths: token exchange results,
per-dispatch attempt outcomes of the content and energy endpoints, and the
clock readings around each dispatch. -/
structure Env where
  tok : ℕ → Option ℕ
  contentAtt : ℕ → AttemptOut ContentJson
  energyAtt : ℕ → AttemptOut ℕ
  times : ℕ → ℚ × ℚ

/-- Ingest of one fetched room in `fetch_rooms_info`:
`room["targetTemperature"] = room.get("targetTemperature", 0) / 100.0` and
likewise for `temperature`. -/
def ingestRoom (r : RawRoom) : Room :=
  { id := r.id
    targetTemperature := ((r.targetTemperature.getD 0 : ℤ) : ℚ) / 100
    temperature := ((r.temperature.getD 0 : ℤ) : ℚ) / 100
    heatingEnabled := r.heatingEnabled
    rest := r.rest }

/-- `Adax.fetch_rooms_info`: one `_request` with `retry=1`; `None` response
or `None` JSON body means an early `return` with the snapshots untouched;
otherwise the homes/rooms/devices snapshots are replaced wholesale. -/
def fetch_rooms_info (env : Env) (s : AdaxState) : AdaxState × Except ReqErr Unit :=
  match adaxRequest env.contentAtt env.times env.tok 1 s with
  | (s1, .error e) => (s1, .error e)
  | (s1, .ok none) => (s1, .ok ())
  | (s1, .ok (some r)) =>
    match r.jsonBody with
    | none => (s1, .ok ())
    | some j =>
      ({ s1 with homes := j.homes, rooms := j.rooms.map ingestRoom, devices := j.devices },
       .ok ())

/-- Python dict assignment `m[k] = v` on an insertion-ordered dict
represented as an association list. -/
def dictInsert (k : ℤ) (v : ℕ) (m : List (ℤ × ℕ)) : List (ℤ × ℕ) :=
  if (m.lookup k).isSome then
    m.map (fun p => if p.1 = k then (k, v) else p)
  else m ++ [(k, v)]

/-- The `for room in self._rooms` loop of `fetch_energy_info`, carrying the
local `room_energy` accumulator.  `.ok none` models the early `return`
(failed room: no commit), `.ok (some acc)` falling off the loop end. -/
def energyLoop (env : Env) :
    List Room → List (ℤ × ℕ) → AdaxState →
    AdaxState × Except ReqErr (Option (List (ℤ × ℕ)))
  | [], acc, s => (s, .ok (some acc))
  | room :: rest, acc, s =>
    match adaxRequest env.energyAtt env.times env.tok 1 s with
    | (s1, .error e) => (s1, .error e)
    | (s1, .ok none) => (s1, .ok none)
    | (s1, .ok (some r)) =>
      match r.jsonBody with
      | none => (s1, .ok none)
      | some j => energyLoop env rest (dictInsert room.id j acc) s1

/-- `Adax.fetch_energy_info`: run the loop; commit `self._energy = room_energy`
only when the loop ran to completion. -/
def fetch_energy_info (env : Env) (s : AdaxState) : AdaxState × Except ReqErr Unit :=
  match energyLoop env s.rooms [] s with
  | (s1, .error e) => (s1, .error e)
  | (s1, .ok none) => (s1, .ok ())
  | (s1, .ok (some acc)) => ({ s1 with energy := acc }, .ok ())

/-- The skip condition of `Adax.update`:
`utcnow() - self._prev_request < timedelta(seconds=RATE_LIMIT_SECONDS)
 or self._write_task is not None`. -/
def updateGate (s : AdaxState) (now : ℚ) : Bool :=
  decide (now - s.prev_request < RATE_LIMIT_SECONDS) || s.write_task.isSome

/-- `Adax.update`: skip when gated, otherwise `fetch_rooms_info` then
`fetch_energy_info`; exceptions propagate. -/
def update (env : Env) (now : ℚ) (s : AdaxState) : AdaxState × Except ReqErr Unit :=
  if updateGate s now then (s, .ok ())
  else
    match fetch_rooms_info env s with
    | (s1, .error e) => (s1, .error e)
    | (s1, .ok ()) => fetch_energy_info env s1

/-- `Adax.get_homes`: `await self.update(); return self._homes`. -/
def get_homes (env : Env) (now : ℚ) (s : AdaxState) :
    AdaxState × Except ReqErr (List ℕ) :=
  match update env now s with
  | (s1, .error e) => (s1, .error e)
  | (s1, .ok ()) => (s1, .ok s1.homes)

/-- `Adax.get_rooms`. -/
def get_rooms (env : Env) (now : ℚ) (s : AdaxState) :
    AdaxState × Except ReqErr (List Room) :=
  match update env now s with
  | (s1, .error e) => (s1, .error e)
  | (s1, .ok ()) => (s1, .ok s1.rooms)

/-- `Adax.get_devices`. -/
def get_devices (env : Env) (now : ℚ) (s : AdaxState) :
    AdaxState × Except ReqErr (List ℕ) :=
  match update env now s with
  | (s1, .error e) => (s1, .error e)
  | (s1, .ok ()) => (s1, .ok s1.devices)

/-- `Adax.get_energy`. -/
def get_energy (env : Env) (now : ℚ) (s : AdaxState) :
    AdaxState × Except ReqErr (List (ℤ × ℕ)) :=
  match update env now s with
  | (s1, .error e) => (s1, .error e)
  | (s1, .ok ()) => (s1, .ok s1.energy)

/-- The pending entry built by `set_room_target_temperature`:
`{"id": room_id, "heatingEnabled": heating_enabled,
  "targetTemperature": str(int(temperature * 100))}`. -/
def mkEntry (room_id : ℤ) (temperature : ℚ) (heating_enabled : Bool) : PendingRoom :=
  { id := room_id
    heatingEnabled := some heating_enabled
    targetTemperature := some (encodeTemperature temperature) }

/-- The pending-set update of `set_room_target_temperature`: drop any entry
with the same room id, then append the new entry. -/
def setPending (p : List PendingRoom) (e : PendingRoom) : List PendingRoom :=
  (p.filter (fun r => !(r.id = e.id : Bool))) ++ [e]

/-- The sleep length computed at the top of
`_write_set_room_target_temperature`:
`max(0.1, (prev_request + timedelta(seconds=RATE_LIMIT_SECONDS) - now).total_seconds())`. -/
def flushDelay (prev now : ℚ) : ℚ :=
  max (1 / 10) (prev + RATE_LIMIT_SECONDS - now)

/-- Update of one stored room by the success branch of
`_write_set_room_target_temperature`:
`room_i["targetTemperature"] = float(room_j.get("targetTemperature", 0)) / 100.0`
and `heatingEnabled` only when present (`is not None`). -/
def patchEntry (e : PendingRoom) (r : Room) : Room :=
  { r with
    targetTemperature :=
      ((match e.targetTemperature with
        | some str => strToInt str
        | none => 0 : ℤ) : ℚ) / 100
    heatingEnabled := e.heatingEnabled.getD r.heatingEnabled }

/-- The nested `for room_i in self._rooms.copy(): for room_j in
json_data.get("rooms"): if`-match-`break` loop: each stored room is patched
by the first batch entry with its id, if any. -/
def patchRooms (rooms : List Room) (batch : List PendingRoom) : List Room :=
  rooms.map (fun r =>
    match batch.find? (fun e => e.id = r.id) with
    | none => r
    | some e => patchEntry e r)

/-- Outcome of the control-endpoint `_request` awaited inside a flush:
a 200 response (`is not None`, snapshot patched), a `None` result
(auth failure / non-200 exhaustion / 429: no patch, but cleanup runs), or a
re-raised transport/timeout exception (the coroutine dies before any of the
cleanup statements run). -/
inductive FlushOutcome
  | success
  | failNone
  | raised
deriving DecidableEq, Repr

/-- Scheduler-visible events of the write coalescer, one per
suspension-point-delimited segment of the source coroutines:

* `setTemp now rid temp heat` — an external caller runs
  `set_room_target_temperature` up to its `await self._set_event.wait()`:
  cancel the current write task if any (a task suspended in its `sleep` or
  in its HTTP await dies there, running none of its remaining statements),
  replace-and-append the pending entry, and `ensure_future` a fresh task,
  which runs up to its `asyncio.sleep` (computing the delay at time `now`).
* `wake now` — the current task's sleep has elapsed (`now` past its wake
  time): it enters `_request`, which stamps `prev_request` and dispatches
  the POST, suspending in the HTTP await.
* `complete outcome now` — that HTTP await resumes with `outcome`.

Events whose precondition does not hold (no task in the right phase) are
no-ops: they cannot be scheduled in asyncio either. -/
inductive Ev
  | setTemp (now : ℚ) (room_id : ℤ) (temperature : ℚ) (heating_enabled : Bool)
  | wake (now : ℚ)
  | complete (outcome : FlushOutcome) (now : ℚ)

/-- One scheduler step of the coalescer model. -/
def step (s : AdaxState) : Ev → AdaxState
  | .setTemp now rid temp heat =>
    let cancelFl : ℕ :=
      match s.write_task with
      | some t => match t.phase with | .flushing => 1 | _ => 0
      | none => 0
    let pending1 := setPending s.pending (mkEntry rid temp heat)
    { s with
      cancelledWhileFlushing := s.cancelledWhileFlushing + cancelFl
      pending := pending1
      write_task := some { body := pending1, phase := .sleeping (now + flushDelay s.prev_request now) }
      waiters := s.waiters + 1 }
  | .wake now =>
    match s.write_task with
    | some t =>
      match t.phase with
      | .sleeping w =>
        if w ≤ now then
          { s with
            prev_request := now
            posts := s.posts ++ [t.body]
            dispatches := s.dispatches + 1
            write_task := some { t with phase := .flushing } }
        else s
      | _ => s
    | none => s
  | .complete outcome now =>
    match s.write_task with
    | some t =>
      match t.phase with
      | .flushing =>
        match outcome with
        | .success =>
          { s with
            rooms := patchRooms s.rooms t.body
            prev_request := now
            pending := []
            released := s.released + s.waiters
            waiters := 0
            write_task := none }
        | .failNone =>
          { s with
            pending := []
            released := s.released + s.waiters
            waiters := 0
            write_task := none }
        | .raised =>
          { s with write_task := some { t with phase := .dead } }
      | _ => s
    | none => s

/-- Run a list of scheduler events. -/
def runEvents (s : AdaxState) : List Ev → AdaxState
  | [] => s
  | e :: es => runEvents (step s e) es

/-- A `set_room_target_temperature` call as an event. -/
def toSetEv (rid : ℤ) (c : ℚ × ℚ × Bool) : Ev :=
  .setTemp c.1 rid c.2.1 c.2.2

/-- `runEvents` distributes over list append. -/
theorem runEvents_append (l1 l2 : List Ev) :
    ∀ s : AdaxState, runEvents s (l1 ++ l2) = runEvents (runEvents s l1) l2 := by
  induction l1 with
  | nil => intro s; rfl
  | cons e es ih => intro s; simpa [runEvents] using ih (step s e)

/-- Fields of the client state that `_request` never writes. -/
def reqFrame (s s1 : AdaxState) : Prop :=
  (s1.homes = s.homes ∧ s1.rooms = s.rooms ∧ s1.devices = s.devices ∧ s1.energy = s.energy) ∧
  (s1.pending = s.pending ∧ s1.write_task = s.write_task ∧ s1.posts = s.posts ∧
   s1.waiters = s.waiters ∧ s1.released = s.released ∧
   s1.cancelledWhileFlushing = s.cancelledWhileFlushing)

/-- `_request` only touches `access_token`, `prev_request`, `dispatches` and
`warnings`: all snapshots and all coalescer state are left unchanged. -/
theorem adaxRequest_frame {β : Type} (att : ℕ → AttemptOut β) (times : ℕ → ℚ × ℚ)
    (tok : ℕ → Option ℕ) :
    ∀ (retry : ℕ) (s : AdaxState), reqFrame s (adaxRequest att times tok retry s).1 := by
  intro retry
  induction retry with
  | zero =>
    intro s
    rw [adaxRequest]
    dsimp only
    split
    · exact ⟨⟨rfl, rfl, rfl, rfl⟩, rfl, rfl, rfl, rfl, rfl, rfl⟩
    · split
      · split
        · exact ⟨⟨rfl, rfl, rfl, rfl⟩, rfl, rfl, rfl, rfl, rfl, rfl⟩
        · exact ⟨⟨rfl, rfl, rfl, rfl⟩, rfl, rfl, rfl, rfl, rfl, rfl⟩
      · exact ⟨⟨rfl, rfl, rfl, rfl⟩, rfl, rfl, rfl, rfl, rfl, rfl⟩
      · exact ⟨⟨rfl, rfl, rfl, rfl⟩, rfl, rfl, rfl, rfl, rfl, rfl⟩
  | succ rr ih =>
    intro s
    rw [adaxRequest]
    dsimp only
    split
    · exact ⟨⟨rfl, rfl, rfl, rfl⟩, rfl, rfl, rfl, rfl, rfl, rfl⟩
    · split
      · split
        · exact ⟨⟨rfl, rfl, rfl, rfl⟩, rfl, rfl, rfl, rfl, rfl, rfl⟩
        · split
          · exact ⟨⟨rfl, rfl, rfl, rfl⟩, rfl, rfl, rfl, rfl, rfl, rfl⟩
          · exact ih _
      · split
        · exact ⟨⟨rfl, rfl, rfl, rfl⟩, rfl, rfl, rfl, rfl, rfl, rfl⟩
        · exact ih _
      · exact ih _

/-- Every exit of `_request` leaves `prev_request` at one of the supplied
clock readings; in particular, when every clock reading is at least `c`,
so is the final `prev_request`. -/
theorem adaxRequest_prev_ge {β : Type} (att : ℕ → AttemptOut β) (times : ℕ → ℚ × ℚ)
    (tok : ℕ → Option ℕ) (c : ℚ)
    (hT : ∀ k, c ≤ (times k).1 ∧ c ≤ (times k).2) :
    ∀ (retry : ℕ) (s : AdaxState), c ≤ (adaxRequest att times tok retry s).1.prev_request := by
  intro retry
  induction retry with
  | zero =>
    intro s
    rw [adaxRequest]
    dsimp only
    split
    · exact (hT _).1
    · split
      · split
        · exact (hT _).2
        · exact (hT _).1
      · exact (hT _).1
      · exact (hT _).1
  | succ rr ih =>
    intro s
    rw [adaxRequest]
    dsimp only
    split
    · exact (hT _).1
    · split
      · split
        · exact (hT _).2
        · split
          · exact (hT _).1
          · exact ih _
      · split
        · exact (hT _).1
        · exact ih _
      · exact ih _

/-- `fetch_rooms_info` leaves `prev_request` at a supplied clock reading. -/
theorem fetch_rooms_info_prev_ge (env : Env) (c : ℚ)
    (hT : ∀ k, c ≤ (env.times k).1 ∧ c ≤ (env.times k).2) (s : AdaxState) :
    c ≤ (fetch_rooms_info env s).1.prev_request := by
  have h := adaxRequest_prev_ge env.contentAtt env.times env.tok c hT 1 s
  unfold fetch_rooms_info
  split
  next s1 e heq => rw [heq] at h; exact h
  next s1 heq => rw [heq] at h; exact h
  next s1 r heq =>
    rw [heq] at h
    split
    · exact h
    · exact h

/-- The energy loop can only move `prev_request` to a supplied clock
reading, so it preserves the lower bound `c`. -/
theorem energyLoop_prev_ge (env : Env) (c : ℚ)
    (hT : ∀ k, c ≤ (env.times k).1 ∧ c ≤ (env.times k).2) :
    ∀ (rooms : List Room) (acc : List (ℤ × ℕ)) (s : AdaxState),
      c ≤ s.prev_request → c ≤ (energyLoop env rooms acc s).1.prev_request := by
  intro rooms
  induction rooms with
  | nil => intro acc s hs; exact hs
  | cons room rest ih =>
    intro acc s hs
    have h := adaxRequest_prev_ge env.energyAtt env.times env.tok c hT 1 s
    rw [energyLoop]
    split
    next s1 e heq => rw [heq] at h; exact h
    next s1 heq => rw [heq] at h; exact h
    next s1 r heq =>
      rw [heq] at h
      split
      · exact h
      · exact ih _ _ h

/-- `fetch_energy_info` preserves the lower bound on `prev_request`. -/
theorem fetch_energy_info_prev_ge (env : Env) (c : ℚ)
    (hT : ∀ k, c ≤ (env.times k).1 ∧ c ≤ (env.times k).2) (s : AdaxState)
    (hs : c ≤ s.prev_request) :
    c ≤ (fetch_energy_info env s).1.prev_request := by
  have h := energyLoop_prev_ge env c hT s.rooms [] s hs
  unfold fetch_energy_info
  split
  next s1 e heq => rw [heq] at h; exact h
  next s1 heq => rw [heq] at h; exact h
  next s1 acc heq => rw [heq] at h; exact h

/-- A non-gated `update` leaves `prev_request` at or above any lower bound
shared by all clock readings. -/
theorem update_prev_ge (env : Env) (now c : ℚ) (s : AdaxState)
    (hg : updateGate s now = false)
    (hT : ∀ k, c ≤ (env.times k).1 ∧ c ≤ (env.times k).2) :
    c ≤ (update env now s).1.prev_request := by
  unfold update
  rw [hg]
  simp only [Bool.false_eq_true, if_false]
  have h := fetch_rooms_info_prev_ge env c hT s
  split
  next s1 e heq => rw [heq] at h; exact h
  next s1 heq => rw [heq] at h; exact fetch_energy_info_prev_ge env c hT s1 h

/-- A trivial oracle environment used for concrete evaluations. -/
def env0 : Env :=
  { tok := fun _ => none
    contentAtt := fun _ => .timeoutError
    energyAtt := fun _ => .timeoutError
    times := fun _ => (0, 0) }

/-- C9: immediately after construction, the first `update()` call is never
skipped by the rate gate: the initial `prev_request` is two hours in the
past, far beyond `RATE_LIMIT_SECONDS`, and no write task exists, so
`update` takes the fetch branch. -/
theorem c9_first_update_not_gated (env : Env) (t now : ℚ) (h : t ≤ now) :
    updateGate (initAdax t) now = false ∧
    update env now (initAdax t) =
      (match fetch_rooms_info env (initAdax t) with
       | (s1, .error e) => (s1, .error e)
       | (s1, .ok ()) => fetch_energy_info env (s1 : AdaxState)) := by
  have hge : RATE_LIMIT_SECONDS ≤ now - (initAdax t).prev_request := by
    simp only [initAdax, RATE_LIMIT_SECONDS]
    linarith
  have hg : updateGate (initAdax t) now = false := by
    simp [updateGate, initAdax, not_lt.mpr hge]
    simpa [initAdax] using hge
  refine ⟨hg, ?_⟩
  unfold update
  rw [hg]
  simp only [Bool.false_eq_true, if_false]

/-- Witness for C9 at `t = 0`, `now = 0`. -/
theorem c9_first_update_not_gated_witness :
    (0 : ℚ) ≤ 0 ∧ updateGate (initAdax 0) 0 = false :=
  ⟨le_refl 0, (c9_first_update_not_gated env0 0 0 (le_refl 0)).1⟩

/-- From a fresh client, the gate of `update` is down for any `now` at or
after construction time. -/
theorem updateGate_init_eq_false (t now : ℚ) (h : t ≤ now) :
    updateGate (initAdax t) now = false := by
  rw [updateGate]
  simp only [initAdax, Option.isSome_none, Bool.or_false]
  rw [decide_eq_false_iff_not]
  rw [RATE_LIMIT_SECONDS]
  push_neg
  linarith

set_option maxHeartbeats 1000000 in
/-- C2: `update()` gating.  Part one: whenever `update` is invoked less than
`RATE_LIMIT_SECONDS` after the last recorded request, or while a write task
exists (flush pending or in flight), it performs no network call, leaves
the whole state (hence every snapshot) unchanged, and the four getters
return the last known snapshots.  Part two: a second `update` issued less
than `RATE_LIMIT_SECONDS` after a first, non-gated one (whose clock
readings are all at or after the first invocation time) is a complete
no-op, so the network fetches run only once. -/
theorem c2_update_gating :
    (∀ (env : Env) (now : ℚ) (s : AdaxState),
      (now - s.prev_request < RATE_LIMIT_SECONDS ∨ s.write_task.isSome) →
      update env now s = (s, .ok ()) ∧
      get_homes env now s = (s, .ok s.homes) ∧
      get_rooms env now s = (s, .ok s.rooms) ∧
      get_devices env now s = (s, .ok s.devices) ∧
      get_energy env now s = (s, .ok s.energy)) ∧
    (∀ (env : Env) (now1 now2 : ℚ) (s : AdaxState),
      updateGate s now1 = false →
      (∀ k, now1 ≤ (env.times k).1 ∧ now1 ≤ (env.times k).2) →
      now2 - now1 < RATE_LIMIT_SECONDS →
      update env now2 (update env now1 s).1 = ((update env now1 s).1, .ok ())) := by
  constructor
  · intro env now s h
    have hg : updateGate s now = true := by
      rcases h with h | h
      · simp [updateGate, h]
      · simp [updateGate, h]
    have hu : update env now s = (s, .ok ()) := by
      rw [update, hg]
      rfl
    have hh : get_homes env now s = (s, .ok s.homes) := by
      rw [get_homes, hu]
    have hr : get_rooms env now s = (s, .ok s.rooms) := by
      rw [get_rooms, hu]
    have hd : get_devices env now s = (s, .ok s.devices) := by
      rw [get_devices, hu]
    have he : get_energy env now s = (s, .ok s.energy) := by
      rw [get_energy, hu]
    exact ⟨hu, hh, hr, hd, he⟩
  · intro env now1 now2 s hg1 hT hlt
    have hprev : now1 ≤ (update env now1 s).1.prev_request :=
      update_prev_ge env now1 now1 s hg1 hT
    have hg2 : updateGate (update env now1 s).1 now2 = true := by
      have hx : now2 - (update env now1 s).1.prev_request < RATE_LIMIT_SECONDS := by
        linarith
      simp [updateGate, hx]
    rw [update, hg2]
    rfl

/-- Witness for C2: part one at a freshly-throttled state, part two from a
fresh client with `now1 = 0`, `now2 = 1`. -/
theorem c2_update_gating_witness :
    ((0 : ℚ) - 0 < RATE_LIMIT_SECONDS ∨ ((none : Option WTask)).isSome) ∧
    update env0 0 { initAdax 0 with prev_request := 0 } =
      ({ initAdax 0 with prev_request := 0 }, .ok ()) ∧
    (updateGate (initAdax 0) 0 = false ∧ (1 : ℚ) - 0 < RATE_LIMIT_SECONDS) ∧
    update env0 1 (update env0 0 (initAdax 0)).1 = ((update env0 0 (initAdax 0)).1, .ok ()) :=
  ⟨Or.inl (by norm_num [RATE_LIMIT_SECONDS]),
   (c2_update_gating.1 env0 0 { initAdax 0 with prev_request := 0 }
      (Or.inl (by norm_num [RATE_LIMIT_SECONDS]))).1,
   ⟨updateGate_init_eq_false 0 0 (le_refl 0), by norm_num [RATE_LIMIT_SECONDS]⟩,
   c2_update_gating.2 env0 0 1 (initAdax 0) (updateGate_init_eq_false 0 0 (le_refl 0))
      (fun _ => ⟨le_refl 0, le_refl 0⟩) (by norm_num [RATE_LIMIT_SECONDS])⟩

/-- C6: when a dispatch is executed with remaining retry budget
(`retry + 1`) under a cached credential and the response status is 429,
`_request` performs no further dispatch (exactly one dispatch is recorded),
clears the cached credential, logs one warning, and returns `None`. -/
theorem c6_429_no_retry {β : Type} (att : ℕ → AttemptOut β) (times : ℕ → ℚ × ℚ)
    (tok : ℕ → Option ℕ) (retry : ℕ) (s : AdaxState) (tk : ℕ) (body : Option β)
    (hTok : s.access_token = some tk)
    (hAtt : att s.dispatches = .resp 429 body) :
    adaxRequest att times tok (retry + 1) s =
      ({ s with prev_request := (times s.dispatches).1
                access_token := none
                dispatches := s.dispatches + 1
                warnings := s.warnings + 1 }, .ok none) := by
  rw [adaxRequest]
  simp [hTok, hAtt]

/-- Witness for C6: one 429 response with budget 3, token cached. -/
theorem c6_429_no_retry_witness :
    ({ initAdax 0 with access_token := some 1 } : AdaxState).access_token = some 1 ∧
    adaxRequest (fun _ => AttemptOut.resp 429 (none : Option ℕ)) (fun _ => (0, 0))
        (fun _ => none) 3 { initAdax 0 with access_token := some 1 } =
      ({ initAdax 0 with prev_request := 0
                         access_token := none
                         dispatches := 1
                         warnings := 1 }, .ok none) := by
  constructor
  · rfl
  · rw [c6_429_no_retry (fun _ => AttemptOut.resp 429 (none : Option ℕ)) (fun _ => (0, 0))
      (fun _ => none) 2 { initAdax 0 with access_token := some 1 } 1 none rfl rfl]
    norm_num [initAdax]

/-- Counterexample to C8 as stated: a single 429-terminated call whose
dispatch started at clock 3 and completed at clock 7 leaves
`prev_request = 3` (the pre-dispatch reading), not the post-completion
reading 7 that the claim requires for every outcome. -/
theorem c8_counterexample :
    (adaxRequest (fun _ => AttemptOut.resp 429 (none : Option ℕ)) (fun _ => (3, 7))
        (fun _ => none) 3 { initAdax 0 with access_token := some 1 }).1.prev_request = 3 ∧
    (3 : ℚ) ≠ 7 := by
  constructor
  · rw [adaxRequest]
    simp [initAdax]
  · norm_num

/-- C8 amended: `prev_request` is stamped with the pre-dispatch clock
reading at the entry of every `_request` invocation, and stamped again with
the post-completion reading only when the final attempt returns status 200;
on every other outcome (429, non-200 exhaustion, token failure, transport
error, timeout) the last stamp is a pre-dispatch reading. -/
theorem c8_amended {β : Type} (att : ℕ → AttemptOut β) (times : ℕ → ℚ × ℚ)
    (tok : ℕ → Option ℕ) :
    ∀ (retry : ℕ) (s : AdaxState),
      (∀ r, (adaxRequest att times tok retry s).2 = .ok (some r) →
        (adaxRequest att times tok retry s).1.prev_request =
          (times ((adaxRequest att times tok retry s).1.dispatches - 1)).2) ∧
      ((∀ r, (adaxRequest att times tok retry s).2 ≠ .ok (some r)) →
        (adaxRequest att times tok retry s).1.prev_request =
          (times ((adaxRequest att times tok retry s).1.dispatches - 1)).1 ∨
        (adaxRequest att times tok retry s).1.prev_request =
          (times (adaxRequest att times tok retry s).1.dispatches).1) := by
  intro retry
  induction retry with
  | zero =>
    intro s
    rw [adaxRequest]
    dsimp only
    split
    · exact ⟨fun r h => by simp at h, fun _ => Or.inr rfl⟩
    · split
      · split
        · exact ⟨fun r h => by simp, fun hne => (hne _ rfl).elim⟩
        · exact ⟨fun r h => by simp at h, fun _ => Or.inl (by simp)⟩
      · exact ⟨fun r h => by simp at h, fun _ => Or.inl (by simp)⟩
      · exact ⟨fun r h => by simp at h, fun _ => Or.inl (by simp)⟩
  | succ rr ih =>
    intro s
    rw [adaxRequest]
    dsimp only
    split
    · exact ⟨fun r h => by simp at h, fun _ => Or.inr rfl⟩
    · split
      · split
        · exact ⟨fun r h => by simp, fun hne => (hne _ rfl).elim⟩
        · split
          · exact ⟨fun r h => by simp at h, fun _ => Or.inl (by simp)⟩
          · exact ih _
      · split
        · exact ⟨fun r h => by simp at h, fun _ => Or.inl (by simp)⟩
        · exact ih _
      · exact ih _

/-- Witness for C8 amended: a single-attempt success run, where the final
stamp is the post-completion reading. -/
theorem c8_amended_witness :
    ((adaxRequest (fun _ => AttemptOut.resp 200 (some 5)) (fun _ => (3, 7))
        (fun _ => none) 3 { initAdax 0 with access_token := some 1 }).2 =
      .ok (some ⟨200, some 5⟩)) ∧
    (adaxRequest (fun _ => AttemptOut.resp 200 (some 5)) (fun _ => (3, 7))
        (fun _ => none) 3 { initAdax 0 with access_token := some 1 }).1.prev_request =
      ((fun (_ : ℕ) => ((3 : ℚ), (7 : ℚ))) ((adaxRequest (fun _ => AttemptOut.resp 200 (some 5))
        (fun _ => (3, 7)) (fun _ => none) 3
        { initAdax 0 with access_token := some 1 }).1.dispatches - 1)).2 := by
  have h2 : (adaxRequest (fun _ => AttemptOut.resp 200 (some (5 : ℕ))) (fun _ => (3, 7))
      (fun _ => none) 3 { initAdax 0 with access_token := some 1 }).2 =
      .ok (some ⟨200, some 5⟩) := by
    rw [adaxRequest]
    simp [initAdax]
  exact ⟨h2,
    (c8_amended (fun _ => AttemptOut.resp 200 (some 5)) (fun _ => (3, 7))
      (fun _ => none) 3 { initAdax 0 with access_token := some 1 }).1 ⟨200, some 5⟩ h2⟩

/-- An environment in which token exchanges succeed but every transport
attempt times out. -/
def envT : Env :=
  { tok := fun _ => some 7
    contentAtt := fun _ => .timeoutError
    energyAtt := fun _ => .timeoutError
    times := fun _ => (0, 0) }

/-- Counterexample to C7 as stated: with a valid token and every transport
attempt timing out, the `retry=1` budget of the content fetch is exhausted
and the resulting `asyncio.TimeoutError` propagates out of `update()` and
`get_rooms()` — it is not swallowed into skip semantics. -/
theorem c7_counterexample :
    (update envT 0 (initAdax 0)).2 = .error .timeoutError ∧
    (get_rooms envT 0 (initAdax 0)).2 = .error .timeoutError := by
  have hg := updateGate_init_eq_false 0 0 (le_refl 0)
  have hsnd : (adaxRequest envT.contentAtt envT.times envT.tok 1 (initAdax 0)).2 =
      .error .timeoutError := by
    simp [adaxRequest, envT, initAdax]
  rcases hp : adaxRequest envT.contentAtt envT.times envT.tok 1 (initAdax 0) with ⟨s1, r⟩
  rw [hp] at hsnd
  dsimp only at hsnd
  subst hsnd
  have h2 : fetch_rooms_info envT (initAdax 0) = (s1, .error .timeoutError) := by
    rw [fetch_rooms_info, hp]
  have h3 : update envT 0 (initAdax 0) = (s1, .error .timeoutError) := by
    rw [update, hg]
    simp only [Bool.false_eq_true, if_false]
    rw [h2]
  have h4 : get_rooms envT 0 (initAdax 0) = (s1, .error .timeoutError) := by
    rw [get_rooms, h3]
  exact ⟨by rw [h3], by rw [h4]⟩

/-- C7 amended: once the retry budget is exhausted, the transport/timeout
error raised by `_request` propagates as a hard error to ALL callers — also
through the `update()` fetch paths, out of `update` and all four getters;
only `None` results (auth failure, non-200 exhaustion, 429) are swallowed
into skip semantics by the fetch paths. -/
theorem c7_amended :
    (∀ (env : Env) (s s1 : AdaxState) (e : ReqErr),
      adaxRequest env.contentAtt env.times env.tok 1 s = (s1, .error e) →
      fetch_rooms_info env s = (s1, .error e)) ∧
    (∀ (env : Env) (s s1 : AdaxState) (e : ReqErr),
      energyLoop env s.rooms [] s = (s1, .error e) →
      fetch_energy_info env s = (s1, .error e)) ∧
    (∀ (env : Env) (now : ℚ) (s s1 : AdaxState) (e : ReqErr),
      updateGate s now = false →
      fetch_rooms_info env s = (s1, .error e) →
      update env now s = (s1, .error e) ∧
      get_homes env now s = (s1, .error e) ∧
      get_rooms env now s = (s1, .error e) ∧
      get_devices env now s = (s1, .error e) ∧
      get_energy env now s = (s1, .error e)) ∧
    (∀ (env : Env) (s s1 : AdaxState),
      adaxRequest env.contentAtt env.times env.tok 1 s = (s1, .ok none) →
      fetch_rooms_info env s = (s1, .ok ())) := by
  refine ⟨?_, ?_, ?_, ?_⟩
  · intro env s s1 e h
    rw [fetch_rooms_info, h]
  · intro env s s1 e h
    rw [fetch_energy_info, h]
  · intro env now s s1 e hg h
    have hu : update env now s = (s1, .error e) := by
      rw [update, hg]
      simp only [Bool.false_eq_true, if_false]
      rw [h]
    exact ⟨hu, by rw [get_homes, hu], by rw [get_rooms, hu],
      by rw [get_devices, hu], by rw [get_energy, hu]⟩
  · intro env s s1 h
    rw [fetch_rooms_info, h]

/-- Witness for C7 amended: with no token obtainable, the content fetch
returns `None` and `fetch_rooms_info` swallows it into a skip. -/
theorem c7_amended_witness :
    adaxRequest env0.contentAtt env0.times env0.tok 1 (initAdax 0) =
      ({ initAdax 0 with prev_request := 0 }, .ok none) ∧
    fetch_rooms_info env0 (initAdax 0) = ({ initAdax 0 with prev_request := 0 }, .ok ()) := by
  have h : adaxRequest env0.contentAtt env0.times env0.tok 1 (initAdax 0) =
      ({ initAdax 0 with prev_request := 0 }, .ok none) := by
    rw [adaxRequest]
    simp [env0, initAdax]
  exact ⟨h, c7_amended.2.2.2 env0 (initAdax 0) { initAdax 0 with prev_request := 0 } h⟩

/-- A committed energy map is complete for a room list: its keys are
exactly the room ids, without duplicates. -/
def energyComplete (e : List (ℤ × ℕ)) (rooms : List Room) : Prop :=
  (e.map Prod.fst).Nodup ∧ ∀ i : ℤ, (e.lookup i).isSome ↔ i ∈ rooms.map Room.id

/-- Membership characterization of association-list lookup. -/
theorem lookup_isSome_iff (m : List (ℤ × ℕ)) (k : ℤ) :
    (m.lookup k).isSome ↔ k ∈ m.map Prod.fst := by
  induction m with
  | nil => simp
  | cons p t ih =>
    rcases p with ⟨a, b⟩
    cases hb : (k == a) with
    | true =>
      have hk : k = a := by simpa using hb
      subst hk
      simp [List.lookup, hb]
    | false =>
      have hk : ¬ k = a := by simpa using hb
      simp [List.lookup, hb, ih, hk]

/-- Keys of a dict after assignment. -/
theorem map_fst_dictInsert (k : ℤ) (v : ℕ) (m : List (ℤ × ℕ)) :
    (dictInsert k v m).map Prod.fst =
      if (m.lookup k).isSome then m.map Prod.fst else m.map Prod.fst ++ [k] := by
  have hmap : ∀ (l : List (ℤ × ℕ)),
      (l.map (fun p => if p.1 = k then (k, v) else p)).map Prod.fst = l.map Prod.fst := by
    intro l
    induction l with
    | nil => rfl
    | cons p t ih =>
      rcases p with ⟨a, b⟩
      by_cases ha : a = k
      · subst ha
        simp [ih]
      · simp [ha, ih]
  unfold dictInsert
  split
  next h => exact hmap m
  next h => simp

/-- Dict assignment preserves key uniqueness. -/
theorem nodup_keys_dictInsert (k : ℤ) (v : ℕ) (m : List (ℤ × ℕ))
    (h : (m.map Prod.fst).Nodup) : ((dictInsert k v m).map Prod.fst).Nodup := by
  rw [map_fst_dictInsert]
  split
  · exact h
  next hnone =>
    have hk : k ∉ m.map Prod.fst := by
      rw [← lookup_isSome_iff]
      simpa using hnone
    simp [List.nodup_append, h, hk]

/-- Lookup after dict assignment. -/
theorem lookup_dictInsert_isSome (k : ℤ) (v : ℕ) (m : List (ℤ × ℕ)) (j : ℤ) :
    ((dictInsert k v m).lookup j).isSome ↔ j = k ∨ (m.lookup j).isSome := by
  by_cases h : (m.lookup k).isSome
  · rw [lookup_isSome_iff, map_fst_dictInsert, if_pos h, ← lookup_isSome_iff]
    constructor
    · exact Or.inr
    · rintro (rfl | hj)
      · exact h
      · exact hj
  · rw [lookup_isSome_iff, map_fst_dictInsert, if_neg h, List.mem_append,
      ← lookup_isSome_iff]
    simp [or_comm]

/-- The energy loop never writes `self._energy`. -/
theorem energyLoop_energy_eq (env : Env) :
    ∀ (rooms : List Room) (acc : List (ℤ × ℕ)) (s : AdaxState),
      (energyLoop env rooms acc s).1.energy = s.energy := by
  intro rooms
  induction rooms with
  | nil => intro acc s; rfl
  | cons room rest ih =>
    intro acc s
    rw [energyLoop]
    rcases hp : adaxRequest env.energyAtt env.times env.tok 1 s with ⟨s2, r⟩
    have hf : s2.energy = s.energy := by
      have hfr := (adaxRequest_frame env.energyAtt env.times env.tok 1 s).1.2.2.2
      rw [hp] at hfr
      exact hfr
    cases r with
    | error e => exact hf
    | ok o =>
      cases o with
      | none => exact hf
      | some hr =>
        show (match hr.jsonBody with
          | none => (s2, Except.ok none)
          | some j => energyLoop env rest (dictInsert room.id j acc) s2).1.energy = s.energy
        cases hh : hr.jsonBody with
        | none => exact hf
        | some j =>
          show (energyLoop env rest (dictInsert room.id j acc) s2).1.energy = s.energy
          rw [ih]
          exact hf

/-- When the energy loop runs to completion, the accumulator it returns has
duplicate-free keys and covers exactly the initial keys plus the ids of the
rooms it walked. -/
theorem energyLoop_spec (env : Env) :
    ∀ (rooms : List Room) (acc : List (ℤ × ℕ)) (s : AdaxState),
      (acc.map Prod.fst).Nodup →
      ∀ (res : List (ℤ × ℕ)) (s1 : AdaxState),
        energyLoop env rooms acc s = (s1, .ok (some res)) →
        (res.map Prod.fst).Nodup ∧
        ∀ i : ℤ, (res.lookup i).isSome ↔ (acc.lookup i).isSome ∨ i ∈ rooms.map Room.id := by
  intro rooms
  induction rooms with
  | nil =>
    intro acc s hnd res s1 h
    simp only [energyLoop, Prod.mk.injEq] at h
    obtain ⟨-, h2⟩ := h
    obtain rfl : acc = res := by simpa using h2
    exact ⟨hnd, by simp⟩
  | cons room rest ih =>
    intro acc s hnd res s1 h
    rw [energyLoop] at h
    rcases hp : adaxRequest env.energyAtt env.times env.tok 1 s with ⟨s2, r⟩
    try rw [hp] at h
    cases r with
    | error e => simp at h
    | ok o =>
      cases o with
      | none => simp at h
      | some hr =>
        replace h : (match hr.jsonBody with
          | none => (s2, Except.ok none)
          | some j => energyLoop env rest (dictInsert room.id j acc) s2) =
            (s1, Except.ok (some res)) := h
        cases hh : hr.jsonBody with
        | none => rw [hh] at h; simp at h
        | some j =>
          rw [hh] at h
          have hmain := ih (dictInsert room.id j acc) s2
            (nodup_keys_dictInsert _ _ _ hnd) res s1 h
          refine ⟨hmain.1, fun i => ?_⟩
          rw [hmain.2 i, lookup_dictInsert_isSome]
          simp only [List.map_cons, List.mem_cons]
          tauto

/-- C5: energy refresh atomicity.  If `fetch_energy_info` returns normally,
the stored energy map is either exactly the prior map (some room's fetch
failed with a `None` response or `None` body, discarding the partial map)
or a complete map with one entry per room id; and even when an exception
propagates, the stored map is unchanged. -/
theorem c5_energy_atomicity :
    (∀ (env : Env) (s s1 : AdaxState),
      fetch_energy_info env s = (s1, .ok ()) →
      s1.energy = s.energy ∨ energyComplete s1.energy s.rooms) ∧
    (∀ (env : Env) (s s1 : AdaxState) (e : ReqErr),
      fetch_energy_info env s = (s1, .error e) → s1.energy = s.energy) := by
  constructor
  · intro env s s1 h
    have hloop := energyLoop_energy_eq env s.rooms [] s
    rw [fetch_energy_info] at h
    rcases hp : energyLoop env s.rooms [] s with ⟨s2, r⟩
    try rw [hp] at h
    try rw [hp] at hloop
    cases r with
    | error e => simp at h
    | ok o =>
      cases o with
      | none =>
        simp only [Prod.mk.injEq] at h
        obtain ⟨h1, -⟩ := h
        subst h1
        left
        exact hloop
      | some acc =>
        simp only [Prod.mk.injEq] at h
        obtain ⟨h1, -⟩ := h
        subst h1
        right
        have hspec := energyLoop_spec env s.rooms [] s (by simp) acc s2 hp
        exact ⟨hspec.1, fun i => by simpa using hspec.2 i⟩
  · intro env s s1 e h
    have hloop := energyLoop_energy_eq env s.rooms [] s
    rw [fetch_energy_info] at h
    rcases hp : energyLoop env s.rooms [] s with ⟨s2, r⟩
    try rw [hp] at h
    try rw [hp] at hloop
    cases r with
    | error e2 =>
      simp only [Prod.mk.injEq] at h
      obtain ⟨h1, -⟩ := h
      subst h1
      exact hloop
    | ok o =>
      cases o with
      | none => simp at h
      | some acc => simp at h

/-- An environment for the C5 scenario: the first energy dispatch succeeds,
the second returns a response whose JSON body is `None`. -/
def envE : Env :=
  { tok := fun _ => some 1
    contentAtt := fun _ => .timeoutError
    energyAtt := fun k => if k = 0 then .resp 200 (some 11) else .resp 200 none
    times := fun _ => (0, 0) }

/-- A client with three rooms, a cached token and a prior energy map. -/
def sE : AdaxState :=
  { initAdax 0 with
    access_token := some 1
    prev_request := 0
    rooms := [{ id := 1, targetTemperature := 19, temperature := 19, heatingEnabled := true, rest := 0 },
              { id := 2, targetTemperature := 20, temperature := 20, heatingEnabled := true, rest := 0 },
              { id := 3, targetTemperature := 21, temperature := 21, heatingEnabled := false, rest := 0 }]
    energy := [(9, 99)] }

/-- Witness for C5: room 2 of 3 fails (its body is `None`), the partial map
built for room 1 is discarded, and the prior energy map `[(9, 99)]` is
returned unchanged. -/
theorem c5_energy_atomicity_witness :
    fetch_energy_info envE sE = ({ sE with dispatches := 2 }, .ok ()) ∧
    (({ sE with dispatches := 2 } : AdaxState).energy = sE.energy ∨
      energyComplete ({ sE with dispatches := 2 } : AdaxState).energy sE.rooms) ∧
    ({ sE with dispatches := 2 } : AdaxState).energy = sE.energy := by
  have hpair : fetch_energy_info envE sE = ({ sE with dispatches := 2 }, .ok ()) := by rfl
  exact ⟨hpair, c5_energy_atomicity.1 envE sE _ hpair, rfl⟩

/-- The current write task, if any, is not in the flushing phase. -/
def taskNotFlushing (s : AdaxState) : Prop :=
  match s.write_task with
  | none => True
  | some t => t.phase ≠ .flushing

/-- The `task.cancel()` bookkeeping term of a `setTemp` step is zero when
the current task is absent or not flushing. -/
theorem cancelFl_eq_zero (s : AdaxState) (hw : taskNotFlushing s) :
    (match s.write_task with
      | some t => match t.phase with | WPhase.flushing => 1 | _ => 0
      | none => 0) = 0 := by
  unfold taskNotFlushing at hw
  rcases hww : s.write_task with - | ⟨body, phase⟩
  · rfl
  · rw [hww] at hw
    cases phase with
    | sleeping w => rfl
    | flushing => exact absurd rfl hw
    | dead => rfl

/-- Effect of one `set_room_target_temperature` call when every pending
entry already carries the same room id: the pending set collapses to the
new entry, the task is (re)scheduled with exactly that entry, one waiter is
added, and nothing else changes. -/
theorem step_setTemp_eq (s : AdaxState) (rid : ℤ) (d : ℚ × ℚ × Bool)
    (hp : ∀ e ∈ s.pending, e.id = rid) (hw : taskNotFlushing s) :
    step s (toSetEv rid d) =
      { s with
        pending := [mkEntry rid d.2.1 d.2.2]
        write_task := some { body := [mkEntry rid d.2.1 d.2.2],
                             phase := .sleeping (d.1 + flushDelay s.prev_request d.1) }
        waiters := s.waiters + 1 } := by
  have hfil : s.pending.filter (fun r => !(r.id = (mkEntry rid d.2.1 d.2.2).id : Bool)) = [] := by
    rw [List.filter_eq_nil_iff]
    intro a ha
    simp [mkEntry, hp a ha]
  simp only [step, toSetEv, setPending, hfil, cancelFl_eq_zero s hw, List.nil_append]
  simp

/-- Effect of a run of consecutive `set_room_target_temperature` calls for
one room id: the pending set ends as the single entry of the last call, the
(re)scheduled task carries exactly that entry, every call added one waiter,
and nothing else — in particular no POST — happens. -/
theorem setTemp_run (rid : ℤ) :
    ∀ (cs : List (ℚ × ℚ × Bool)) (c : ℚ × ℚ × Bool) (s : AdaxState),
      (∀ e ∈ s.pending, e.id = rid) →
      taskNotFlushing s →
      runEvents s ((cs ++ [c]).map (toSetEv rid)) =
        { s with
          pending := [mkEntry rid c.2.1 c.2.2]
          write_task := some { body := [mkEntry rid c.2.1 c.2.2],
                               phase := .sleeping (c.1 + flushDelay s.prev_request c.1) }
          waiters := s.waiters + cs.length + 1 } := by
  intro cs
  induction cs with
  | nil =>
    intro c s hp hw
    have hstep := step_setTemp_eq s rid c hp hw
    simp only [List.nil_append, List.map_cons, List.map_nil, runEvents, hstep]
    congr 1
  | cons d cs ih =>
    intro c s hp hw
    have hstep := step_setTemp_eq s rid d hp hw
    have hp1 : ∀ e ∈ ({ s with
        pending := [mkEntry rid d.2.1 d.2.2]
        write_task := some { body := [mkEntry rid d.2.1 d.2.2],
                             phase := .sleeping (d.1 + flushDelay s.prev_request d.1) }
        waiters := s.waiters + 1 } : AdaxState).pending, e.id = rid := by
      intro e he
      simp only [List.mem_singleton] at he
      subst he
      rfl
    have hw1 : taskNotFlushing ({ s with
        pending := [mkEntry rid d.2.1 d.2.2]
        write_task := some { body := [mkEntry rid d.2.1 d.2.2],
                             phase := .sleeping (d.1 + flushDelay s.prev_request d.1) }
        waiters := s.waiters + 1 } : AdaxState) := by
      unfold taskNotFlushing
      intro hcontra
      exact WPhase.noConfusion hcontra
    have hih := ih c _ hp1 hw1
    have hrun : runEvents s (((d :: cs) ++ [c]).map (toSetEv rid)) =
        runEvents (step s (toSetEv rid d)) ((cs ++ [c]).map (toSetEv rid)) := by
      simp [runEvents]
    rw [hrun, hstep, hih]
    simp only [AdaxState.mk.injEq, List.length_cons, and_true, true_and]
    omega

/-- C1: coalescing last-write-wins.  Starting from an empty pending set
(and no flushing task), any consecutive sequence of
`set_room_target_temperature` calls for one room id within one rate-limit
window (all before the scheduled sleep elapses), followed by the flush
firing and its control POST succeeding, issues exactly one POST, whose body
holds exactly one entry for that room carrying the last call's values, with
the temperature encoded as `str(int(temperature * 100))`. -/
theorem c1_coalesce_last_write (rid : ℤ) (cs : List (ℚ × ℚ × Bool))
    (lnow ltemp : ℚ) (lheat : Bool) (s : AdaxState) (tw tc : ℚ)
    (hpend : s.pending = []) (hw : taskNotFlushing s)
    (hwake : lnow + flushDelay s.prev_request lnow ≤ tw) :
    (runEvents s (((cs ++ [(lnow, ltemp, lheat)]).map (toSetEv rid)) ++
        [.wake tw, .complete .success tc])).posts =
      s.posts ++ [[mkEntry rid ltemp lheat]] ∧
    mkEntry rid ltemp lheat =
      { id := rid, heatingEnabled := some lheat,
        targetTemperature := some (toString (pyInt (ltemp * 100))) } := by
  refine ⟨?_, rfl⟩
  rw [runEvents_append]
  rw [setTemp_run rid cs (lnow, ltemp, lheat) s (by simp [hpend]) hw]
  simp only [runEvents, step]
  rw [if_pos hwake]

/-- Witness for C1: the spec scenario — calls with `21.5, true` then
`22.0, false` in one window, then a successful flush; the single POST
carries `targetTemperature = "2200"`, `heatingEnabled = false`. -/
theorem c1_coalesce_last_write_witness :
    (runEvents (initAdax 0) ((([((0 : ℚ), (43 : ℚ)/2, true)] ++ [((0 : ℚ), (22 : ℚ), false)]).map
        (toSetEv 1)) ++ [.wake 1, .complete .success 2])).posts =
      (initAdax 0).posts ++ [[mkEntry 1 22 false]] ∧
    mkEntry 1 22 false =
      { id := 1, heatingEnabled := some false, targetTemperature := some ("2200") } := by
  have hwake : (0 : ℚ) + flushDelay (initAdax 0).prev_request 0 ≤ 1 := by
    rw [flushDelay, RATE_LIMIT_SECONDS]
    show (0 : ℚ) + max (1 / 10) ((0 - 7200) + 10 - 0) ≤ 1
    rw [zero_add, max_le_iff]
    constructor <;> norm_num
  have h := c1_coalesce_last_write 1 [((0 : ℚ), (43 : ℚ)/2, true)] 0 22 false (initAdax 0) 1 2
    rfl trivial hwake
  refine ⟨h.1, ?_⟩
  rw [h.2]
  have henc : toString (pyInt ((22 : ℚ) * 100)) = ("2200") := by
    norm_num [pyInt]
    rfl
  rw [henc]

def room1 : Room :=
  { id := 1, targetTemperature := 19, temperature := 19, heatingEnabled := true, rest := 0 }

/-- A client with one room, idle, last request 10 seconds ago. -/
def s0 : AdaxState := { initAdax 0 with prev_request := -10, rooms := [room1] }

/-- The C3 trace: an edit, its flush dispatching its POST (entering
`Flushing`), then a second edit arriving while the flush is in flight. -/
def trace3 : List Ev := [.setTemp 0 1 (43/2) true, .wake 1, .setTemp 2 1 22 false]

/-- Counterexample to C3 as stated: `set_room_target_temperature` calls
`self._write_task.cancel()` unconditionally, so an edit arriving while the
flush's HTTP call is in flight cancels that flushing task
(`cancelledWhileFlushing = 1`).  The cancelled flush had already issued its
POST (the `"2150"` body is in `posts`), but it does not run to completion:
it never writes its pending-set snapshot into the rooms (rooms still show
19), never releases its waiter (`released = 0`), and even a later success
completion for it is a no-op, because the task slot already holds the new
edit's task. -/
theorem c3_counterexample :
    (runEvents s0 trace3).cancelledWhileFlushing = 1 ∧
    (runEvents s0 trace3).posts = [[mkEntry 1 (43/2) true]] ∧
    (runEvents s0 trace3).rooms = [room1] ∧
    (runEvents s0 trace3).released = 0 ∧
    step (runEvents s0 trace3) (.complete .success 3) = runEvents s0 trace3 := by
  refine ⟨?_, ?_, ?_, ?_, ?_⟩ <;>
    norm_num [runEvents, step, trace3, toSetEv, setPending, mkEntry, encodeTemperature,
      pyInt, flushDelay, RATE_LIMIT_SECONDS, s0, initAdax, room1]

/-- C3 amended: a new edit cancels the current write task in ANY phase —
including one already flushing, which then neither writes its snapshot nor
runs its cleanup; the cancelling edit itself issues no POST and installs a
fresh scheduled task carrying the merged pending set.  A POST only ever
arises from the wake of the currently installed, still-scheduled task, so a
scheduled-but-not-yet-started flush that was cancelled (and thereby
uninstalled) never issues its stale HTTP body. -/
theorem c3_amended :
    (∀ (s : AdaxState) (tk : WTask) (now : ℚ) (rid : ℤ) (temp : ℚ) (heat : Bool),
      s.write_task = some tk →
      (step s (.setTemp now rid temp heat)).posts = s.posts ∧
      (step s (.setTemp now rid temp heat)).rooms = s.rooms ∧
      (step s (.setTemp now rid temp heat)).write_task =
        some { body := setPending s.pending (mkEntry rid temp heat)
               phase := .sleeping (now + flushDelay s.prev_request now) } ∧
      (step s (.setTemp now rid temp heat)).pending =
        setPending s.pending (mkEntry rid temp heat) ∧
      (tk.phase = .flushing →
        (step s (.setTemp now rid temp heat)).cancelledWhileFlushing =
          s.cancelledWhileFlushing + 1) ∧
      (tk.phase ≠ .flushing →
        (step s (.setTemp now rid temp heat)).cancelledWhileFlushing =
          s.cancelledWhileFlushing)) ∧
    (∀ (s : AdaxState) (e : Ev),
      (step s e).posts ≠ s.posts →
      ∃ (now : ℚ) (tk : WTask) (w : ℚ),
        e = .wake now ∧ s.write_task = some tk ∧ tk.phase = .sleeping w ∧ w ≤ now ∧
        (step s e).posts = s.posts ++ [tk.body]) := by
  constructor
  · intro s tk now rid temp heat htask
    obtain ⟨body, phase⟩ := tk
    refine ⟨?_, ?_, ?_, ?_, ?_, ?_⟩
    · simp [step]
    · simp [step]
    · simp [step]
    · simp [step]
    · intro hph
      simp only at hph
      subst hph
      simp [step, htask]
    · intro hph
      cases phase with
      | sleeping w => simp [step, htask]
      | flushing => exact absurd rfl hph
      | dead => simp [step, htask]
  · intro s e h
    cases e with
    | setTemp now rid temp heat => simp [step] at h
    | wake now =>
      rcases hww : s.write_task with - | tk
      · rw [step, hww] at h
        exact absurd rfl h
      · obtain ⟨body, phase⟩ := tk
        cases phase with
        | sleeping w =>
          have hstep : step s (Ev.wake now) =
              (if w ≤ now then ({ s with
                prev_request := now
                write_task := some ⟨body, WPhase.flushing⟩
                posts := s.posts ++ [body]
                dispatches := s.dispatches + 1 } : AdaxState) else s) := by
            rw [step, hww]
          rw [hstep] at h
          by_cases hle : w ≤ now
          · refine ⟨now, ⟨body, .sleeping w⟩, w, rfl, rfl, rfl, hle, ?_⟩
            rw [hstep, if_pos hle]
          · rw [if_neg hle] at h
            exact absurd rfl h
        | flushing =>
          rw [step, hww] at h
          exact absurd rfl h
        | dead =>
          rw [step, hww] at h
          exact absurd rfl h
    | complete outcome now =>
      rcases hww : s.write_task with - | tk
      · rw [step, hww] at h
        exact absurd rfl h
      · obtain ⟨body, phase⟩ := tk
        cases phase with
        | sleeping w =>
          rw [step, hww] at h
          exact absurd rfl h
        | flushing =>
          cases outcome with
          | success =>
            rw [step, hww] at h
            exact absurd rfl h
          | failNone =>
            rw [step, hww] at h
            exact absurd rfl h
          | raised =>
            rw [step, hww] at h
            exact absurd rfl h
        | dead =>
          rw [step, hww] at h
          exact absurd rfl h

/-- Witness for C3 amended: the second edit of the C3 trace, which cancels
a flushing task. -/
theorem c3_amended_witness :
    (runEvents s0 [.setTemp 0 1 (43/2) true, .wake 1]).write_task =
      some { body := [mkEntry 1 (43/2) true], phase := .flushing } ∧
    (step (runEvents s0 [.setTemp 0 1 (43/2) true, .wake 1]) (.setTemp 2 1 22 false)).posts =
      (runEvents s0 [.setTemp 0 1 (43/2) true, .wake 1]).posts := by
  have htask : (runEvents s0 [.setTemp 0 1 (43/2) true, .wake 1]).write_task =
      some { body := [mkEntry 1 (43/2) true], phase := .flushing } := by
    norm_num [runEvents, step, toSetEv, setPending, mkEntry, encodeTemperature,
      pyInt, flushDelay, RATE_LIMIT_SECONDS, s0, initAdax, room1]
  exact ⟨htask,
    (c3_amended.1 (runEvents s0 [.setTemp 0 1 (43/2) true, .wake 1])
      { body := [mkEntry 1 (43/2) true], phase := .flushing } 2 1 22 false htask).1⟩

/-- The C4 failing trace: an edit, its flush dispatching the control POST,
and the control `_request` re-raising after exhausting its retries. -/
def trace4 : List Ev := [.setTemp 0 1 (43/2) true, .wake 1, .complete .raised 2]

/-- C4 evaluated at the failing input: `_write_set_room_target_temperature`
has no `try/finally`, so when the control `_request` re-raises (transport or
timeout error with the budget exhausted) the coroutine dies before its
cleanup lines.  The pending set is NOT cleared, the caller blocked on
`self._set_event.wait()` is NOT released, and `self._write_task` is NOT
reset — so every subsequent `update()` is skipped forever, contradicting
the claimed cleanup-on-every-outcome. -/
theorem c4_missing_cleanup_on_raise :
    (runEvents s0 trace4).pending = [mkEntry 1 (43/2) true] ∧
    (runEvents s0 trace4).waiters = 1 ∧
    (runEvents s0 trace4).released = 0 ∧
    (runEvents s0 trace4).write_task = some ⟨[mkEntry 1 (43/2) true], .dead⟩ ∧
    ∀ (env : Env) (now : ℚ),
      update env now (runEvents s0 trace4) = (runEvents s0 trace4, .ok ()) := by
  have htask : (runEvents s0 trace4).write_task =
      some ⟨[mkEntry 1 (43/2) true], .dead⟩ := by
    norm_num [runEvents, step, trace4, toSetEv, setPending, mkEntry, encodeTemperature,
      pyInt, flushDelay, RATE_LIMIT_SECONDS, s0, initAdax, room1]
  refine ⟨?_, ?_, ?_, htask, ?_⟩
  · norm_num [runEvents, step, trace4, toSetEv, setPending, mkEntry, encodeTemperature,
      pyInt, flushDelay, RATE_LIMIT_SECONDS, s0, initAdax, room1]
  · norm_num [runEvents, step, trace4, toSetEv, setPending, mkEntry, encodeTemperature,
      pyInt, flushDelay, RATE_LIMIT_SECONDS, s0, initAdax, room1]
  · norm_num [runEvents, step, trace4, toSetEv, setPending, mkEntry, encodeTemperature,
      pyInt, flushDelay, RATE_LIMIT_SECONDS, s0, initAdax, room1]
  · intro env now
    have hg : updateGate (runEvents s0 trace4) now = true := by
      simp [updateGate, htask]
    rw [update, hg]
    rfl

/-- Pointwise description of the snapshot patch loop: within range, the
`i`-th room is patched by the first matching batch entry (if any); out of
range, `getD` returns the default. -/
theorem patchRooms_getD (batch : List PendingRoom) :
    ∀ (rooms : List Room) (i : ℕ),
      (patchRooms rooms batch).getD i defaultRoom =
        if i < rooms.length then
          (match batch.find? (fun e => e.id = (rooms.getD i defaultRoom).id) with
           | none => rooms.getD i defaultRoom
           | some e => patchEntry e (rooms.getD i defaultRoom))
        else defaultRoom := by
  intro rooms
  induction rooms with
  | nil => intro i; simp [patchRooms]
  | cons r t ih =>
    intro i
    have hcons : patchRooms (r :: t) batch =
        (match batch.find? (fun e => e.id = r.id) with
         | none => r
         | some e => patchEntry e r) :: patchRooms t batch := by
      simp [patchRooms]
    rw [hcons]
    cases i with
    | zero =>
      simp only [List.getD_cons_zero, List.length_cons]
      rw [if_pos (Nat.succ_pos _)]
    | succ j =>
      simp only [List.getD_cons_succ, List.length_cons]
      rw [ih j]
      by_cases hj : j < t.length
      · rw [if_pos hj, if_pos (Nat.succ_lt_succ hj)]
      · rw [if_neg hj, if_neg (fun hc => hj (Nat.lt_of_succ_lt_succ hc))]

/-- C10: frame property of a successful flush.  Completing a flushing
task's control POST successfully leaves the homes, devices and energy
snapshots untouched; the rooms list keeps its length, every room keeps its
id, its measured temperature and all its other fields; a room whose id does
not occur in the sent batch is completely unchanged; and a room matched by
a batch entry without a `heatingEnabled` value keeps its heating flag. -/
theorem c10_flush_frame (s : AdaxState) (tk : WTask) (now : ℚ)
    (htask : s.write_task = some tk) (hph : tk.phase = .flushing) :
    (step s (.complete .success now)).homes = s.homes ∧
    (step s (.complete .success now)).devices = s.devices ∧
    (step s (.complete .success now)).energy = s.energy ∧
    (step s (.complete .success now)).rooms.length = s.rooms.length ∧
    ∀ i : ℕ,
      ((step s (.complete .success now)).rooms.getD i defaultRoom).id =
        (s.rooms.getD i defaultRoom).id ∧
      ((step s (.complete .success now)).rooms.getD i defaultRoom).temperature =
        (s.rooms.getD i defaultRoom).temperature ∧
      ((step s (.complete .success now)).rooms.getD i defaultRoom).rest =
        (s.rooms.getD i defaultRoom).rest ∧
      ((∀ e ∈ tk.body, e.id ≠ (s.rooms.getD i defaultRoom).id) →
        (step s (.complete .success now)).rooms.getD i defaultRoom =
          s.rooms.getD i defaultRoom) ∧
      (∀ e, tk.body.find? (fun x => x.id = (s.rooms.getD i defaultRoom).id) = some e →
        e.heatingEnabled = none →
        ((step s (.complete .success now)).rooms.getD i defaultRoom).heatingEnabled =
          (s.rooms.getD i defaultRoom).heatingEnabled) := by
  obtain ⟨body, phase⟩ := tk
  simp only at hph
  subst hph
  have hstep : step s (.complete .success now) =
      { s with
        rooms := patchRooms s.rooms body
        prev_request := now
        pending := []
        released := s.released + s.waiters
        waiters := 0
        write_task := none } := by
    rw [step, htask]
  have hrooms : (step s (.complete .success now)).rooms = patchRooms s.rooms body := by
    rw [hstep]
  have hlen : (patchRooms s.rooms body).length = s.rooms.length := by
    simp [patchRooms]
  refine ⟨by rw [hstep], by rw [hstep], by rw [hstep], by rw [hrooms, hlen], ?_⟩
  intro i
  dsimp only
  rw [hrooms, patchRooms_getD]
  by_cases hi : i < s.rooms.length
  · rw [if_pos hi]
    cases hf : List.find? (fun e => decide (e.id = (s.rooms.getD i defaultRoom).id)) body with
    | none =>
      refine ⟨rfl, rfl, rfl, fun _ => rfl, ?_⟩
      intro e he hn
      cases he
    | some e =>
      refine ⟨rfl, rfl, rfl, ?_, ?_⟩
      · intro hnone
        exfalso
        have hmem := List.mem_of_find?_eq_some hf
        have hpred := List.find?_some hf
        simp only [decide_eq_true_eq] at hpred
        exact (hnone e hmem) hpred
      · intro e2 he2 hnone
        injection he2 with he2
        subst he2
        simp [patchEntry, hnone]
  · rw [if_neg hi]
    have hd : s.rooms.getD i defaultRoom = defaultRoom :=
      List.getD_eq_default _ _ (Nat.le_of_not_lt hi)
    rw [hd]
    exact ⟨rfl, rfl, rfl, fun _ => rfl, fun e he hn => rfl⟩

/-- A flushing task whose batch holds an entry for room 2. -/
def tkW : WTask := { body := [mkEntry 2 22 false], phase := .flushing }

/-- A client with room 1 and the flushing task for room 2 installed. -/
def sW : AdaxState :=
  { s0 with pending := [mkEntry 2 22 false], write_task := some tkW, waiters := 1 }

/-- Witness for C10: completing the room-2 flush leaves the homes snapshot
and the (unrelated) room 1 untouched. -/
theorem c10_flush_frame_witness :
    sW.write_task = some tkW ∧ tkW.phase = .flushing ∧
    (step sW (.complete .success 3)).homes = sW.homes ∧
    (step sW (.complete .success 3)).rooms.getD 0 defaultRoom = sW.rooms.getD 0 defaultRoom := by
  have h := c10_flush_frame sW tkW 3 rfl rfl
  refine ⟨rfl, rfl, h.1, ?_⟩
  refine (h.2.2.2.2 0).2.2.2.1 ?_
  intro e he
  simp only [tkW, List.mem_singleton] at he
  subst he
  intro hc
  exact absurd hc (by decide)
